import Mathlib

/-!
# Verification of the Stackdriver metrics exporter core

A shallow embedding, in Lean 4, of the metric-batching and time-series
reconciliation pipeline of the `stackdriver` exporter package:

* the signature-based deduplicating request splitter
  (`combineTimeSeriesToCreateTimeSeriesRequest`, `metricSignature`);
* the distribution point converter (`metricPointToMpbValue`,
  `shouldInsertZeroBound`, `addZeroBoundOnCondition`,
  `addZeroBucketCountOnCondition`);
* the partial-failure accountant (`droppedTimeSeriesFromMonitoringAPIError`
  and the scanner corresponding to `timeSeriesErrRegex`);
* the descriptor cache (`createMetricDescriptorFromMetric`);
* the metrics batcher (`addTimeSeries`, `sendReqToChan`, `close`) and its
  error aggregation, shared with `uploadMetrics`;
* the metric-to-time-series conversion (`metricToMpbTs`,
  `metricDescriptorTypeToMetricKind`).

Modelling conventions: Go `float64` values are modelled as `Rat` (the claims
under study are control-flow and exact-arithmetic properties, not rounding
properties); Go maps of labels are modelled as association lists; Go slices
as lists; Go `error` values as `Option String` (`none` = `nil`); channels are
modelled by the sequence of values sent on them.
-/

namespace Stackdriver

/-- `maxTimeSeriesPerUpload` from the source (the backend's hard cap of 200
time series per `CreateTimeSeriesRequest`). -/
def maxTimeSeriesPerUpload : Nat := 200

/-- `googlemetricpb.Metric`: a metric type string plus its labels
(a Go `map[string]string`, modelled as an association list). -/
structure Metric where
  type : String
  labels : List (String × String)
deriving DecidableEq

/-- `monitoredrespb.MonitoredResource`: a resource type plus labels. -/
structure MonitoredResource where
  type : String
  labels : List (String × String)
deriving DecidableEq

/-- `distributionpb.Distribution_Exemplar`, restricted to the fields the
model tracks (the attachment `Any`-encoding is outside the model; no claim
depends on it). -/
structure Exemplar where
  value : Rat
  timestamp : Int
deriving DecidableEq

/-- Converted typed value (`monitoringpb.TypedValue` and the nested
`distributionpb.Distribution`). -/
structure DistributionValue where
  count : Int
  mean : Rat
  sumOfSquaredDeviation : Rat
  /-- `BucketOptions.ExplicitBuckets.Bounds`; `none` when `BucketOptions`
  was never set (input had nil bucket options). -/
  bucketBounds : Option (List Rat)
  bucketCounts : List Int
  exemplars : List Exemplar
deriving DecidableEq

/-- `monitoringpb.TypedValue`: the oneof of the converted value kinds. -/
inductive TypedValue where
  | int64Value : Int → TypedValue
  | doubleValue : Rat → TypedValue
  | distributionValue : DistributionValue → TypedValue
deriving DecidableEq

/-- Converted `monitoringpb.Point`: a typed value plus its time interval. -/
structure Point where
  value : Option TypedValue
  startTime : Option Int
  endTime : Int
deriving DecidableEq

/-- `monitoringpb.TimeSeries` (output side): metric, resource and points. -/
structure TimeSeries where
  metric : Metric
  resource : MonitoredResource
  points : List Point
deriving DecidableEq

/-- `monitoringpb.CreateTimeSeriesRequest`: a project name and its batch of
time series. -/
structure CreateTimeSeriesRequest where
  name : String
  timeSeries : List TimeSeries
deriving DecidableEq

/-- Byte-wise (code-point-wise) lexicographic `≤` on strings, the order
`sort.Strings` sorts by (UTF-8 byte order coincides with code point
order). -/
def strLeB (a b : String) : Bool :=
  go a.toList b.toList
where
  go : List Char → List Char → Bool
    | [], _ => true
    | _ :: _, [] => false
    | c :: cs, d :: ds =>
      if c.toNat < d.toNat then true
      else if d.toNat < c.toNat then false
      else go cs ds

/-- Insertion into a sorted list under `strLeB`. -/
def insertSorted (x : String) : List String → List String
  | [] => [x]
  | y :: ys => if strLeB x y then x :: y :: ys else y :: insertSorted x ys

/-- `sort.Strings`: sorting is modelled by insertion sort, which produces
the same result (the nondecreasing reordering of a list of strings is
unique, whatever algorithm produces it). -/
def sortStrings (l : List String) : List String :=
  l.foldr insertSorted []

/-- `metricSignature` (stats.go): the deduplication key of a time series,
`fmt.Sprintf("%s:%s", metric.GetType(), strings.Join(labelValues, ","))`
where `labelValues` are the metric's label values sorted with
`sort.Strings`. Label keys are deliberately not part of the signature. -/
def metricSignature (metric : Metric) : String :=
  let labelValues := metric.labels.map Prod.snd
  metric.type ++ ":" ++ String.intercalate "," (sortStrings labelValues)

/-- The first pass of `combineTimeSeriesToCreateTimeSeriesRequest`: walk the
series in order, keeping a `seenMetrics` set of signatures; a series whose
signature is unseen goes to `uniqueTimeSeries` (first component) and marks
its signature seen, otherwise it goes to `nonUniqueTimeSeries` (second
component). -/
def partitionBySeen (seen : List String) : List TimeSeries → List TimeSeries × List TimeSeries
  | [] => ([], [])
  | t :: ts =>
    if metricSignature t.metric ∈ seen then
      let p := partitionBySeen seen ts
      (p.1, t :: p.2)
    else
      let p := partitionBySeen (metricSignature t.metric :: seen) ts
      (t :: p.1, p.2)

/-- `combineTimeSeriesToCreateTimeSeriesRequest` (stats.go), with the Go
recursion on the spilled (non-unique) set expressed through a fuel
parameter so the definition is structural; `ts.length` fuel always
suffices because each recursive call strictly shrinks the list
(see `partitionBySeen_cons_snd_lt` and `combineAux_congr` below). Empty
input returns no request;
otherwise the unique series form one request and the function recurses on
the non-unique remainder. -/
def combineAux (projectID : String) : Nat → List TimeSeries → List CreateTimeSeriesRequest
  | _, [] => []
  | 0, _ :: _ => []
  | fuel + 1, t :: ts =>
    let p := partitionBySeen [] (t :: ts)
    ⟨"projects/" ++ projectID, p.1⟩ :: combineAux projectID fuel p.2

/-- `combineTimeSeriesToCreateTimeSeriesRequest`: entry point, supplying
sufficient fuel. -/
def combineTimeSeriesToCreateTimeSeriesRequest (projectID : String)
    (ts : List TimeSeries) : List CreateTimeSeriesRequest :=
  combineAux projectID ts.length ts

/-- Total number of time series across a list of requests. -/
def totalSeries (reqs : List CreateTimeSeriesRequest) : Nat :=
  (reqs.map (fun r => r.timeSeries.length)).sum

/-- Number of occurrences of signature `s` among the series of `ts`. -/
def sigCount (s : String) (ts : List TimeSeries) : Nat :=
  (ts.map (fun t => metricSignature t.metric)).count s

/-- The maximum multiplicity of any single signature in `ts` (0 for the
empty list). -/
def maxMultiplicity (ts : List TimeSeries) : Nat :=
  (ts.map (fun t => sigCount (metricSignature t.metric) ts)).foldr max 0

/-! ## Input-side metric data model (`metricdata` package) -/

/-- `metricdata.LabelKey`. -/
structure MLabelKey where
  key : String
  description : String
deriving DecidableEq

/-- `metricdata.LabelValue`: a value plus its `Present` flag. -/
structure MLabelValue where
  value : String
  present : Bool
deriving DecidableEq

/-- `metricdata.BucketOptions`: explicit bucket boundaries. -/
structure BucketOptions where
  bounds : List Rat
deriving DecidableEq

/-- `metricdata.Bucket`: a per-bucket count and an optional exemplar. -/
structure Bucket where
  count : Int
  exemplar : Option Exemplar
deriving DecidableEq

/-- `metricdata.Distribution`. -/
structure MDistribution where
  count : Int
  sum : Rat
  sumOfSquaredDeviation : Rat
  bucketOptions : Option BucketOptions
  buckets : List Bucket
deriving DecidableEq

/-- The dynamic type of a `metricdata.Point.Value` (`interface{}` in Go):
the three supported kinds plus a constructor standing for every other
dynamic type (caught by the `default` case of the switch). -/
inductive MPointValue where
  | int64Val : Int → MPointValue
  | doubleVal : Rat → MPointValue
  | distributionVal : MDistribution → MPointValue
  | otherVal : MPointValue
deriving DecidableEq

/-- `metricdata.Point`: an end time and a dynamically typed value. -/
structure MPoint where
  time : Int
  value : MPointValue
deriving DecidableEq

/-- `metricdata.Type`: the known descriptor types plus arbitrary
unrecognized values (the switch's `default` case). -/
inductive MetricDataType where
  | cumulativeInt64
  | cumulativeFloat64
  | cumulativeDistribution
  | gaugeInt64
  | gaugeFloat64
  | gaugeDistribution
  | summary
  | other : Nat → MetricDataType
deriving DecidableEq

/-- `metricdata.Descriptor`. -/
structure MDescriptor where
  name : String
  description : String
  unit : String
  type : MetricDataType
  labelKeys : List MLabelKey
deriving DecidableEq

/-- `resource.Resource` (the OpenCensus resource attached to a metric). -/
structure OCResource where
  type : String
  labels : List (String × String)
deriving DecidableEq

/-- `metricdata.TimeSeries` (input side). -/
structure MTimeSeries where
  labelValues : List MLabelValue
  points : List MPoint
  startTime : Int
deriving DecidableEq

/-- `metricdata.Metric`: descriptor, optional resource, time series. -/
structure MMetric where
  descriptor : MDescriptor
  resource : Option OCResource
  timeSeries : List MTimeSeries
deriving DecidableEq

/-- `googlemetricpb.MetricDescriptor_MetricKind`. -/
inductive MetricKind where
  | unspecified
  | gauge
  | cumulative
deriving DecidableEq

/-- `googlemetricpb.MetricDescriptor_ValueType`. -/
inductive MetricValueType where
  | unspecified
  | int64
  | double
  | distribution
deriving DecidableEq

/-! ## Distribution conversion (`metricPointToMpbValue` and helpers) -/

/-- `shouldInsertZeroBound` (stats.go): true iff the bounds list is
non-empty and its first element is strictly greater than 0. -/
def shouldInsertZeroBound (bounds : List Rat) : Bool :=
  match bounds with
  | b :: _ => decide (b > 0)
  | [] => false

/-- `addZeroBucketCountOnCondition` (stats.go): prepend a `0` count when
`insert` is true. -/
def addZeroBucketCountOnCondition (insert : Bool) (counts : List Int) : List Int :=
  if insert then 0 :: counts else counts

/-- `addZeroBoundOnCondition` (stats.go): prepend a `0.0` bound when
`insert` is true. -/
def addZeroBoundOnCondition (insert : Bool) (bounds : List Rat) : List Rat :=
  if insert then 0 :: bounds else bounds

/-- `metricBucketToBucketCountsAndExemplars` (metrics.go): extract the
per-bucket counts, and the exemplars of the buckets that carry one. -/
def metricBucketToBucketCountsAndExemplars (buckets : List Bucket) :
    List Int × List Exemplar :=
  (buckets.map (fun b => b.count), buckets.filterMap (fun b => b.exemplar))

/-- Message of `errNilMetricOrMetricDescriptor`. -/
def errNilMetricOrMetricDescriptor : String := "non-nil metric or metric descriptor"

/-- `metricPointToMpbValue` (metrics.go): convert one point's dynamic value
to a `TypedValue`. Returns the `(value, error)` pair of the Go function:
a nil point yields `(nil, nil)`, an unknown dynamic type yields an error,
and a distribution computes `mean = sum/count` guarded by `count > 0`,
inserts the synthetic zero bound/count when the first bound is positive,
and copies counts and exemplars. (`projectID` is used in Go only for the
exemplar span attachment encoding, outside this model.) -/
def metricPointToMpbValue (pt : Option MPoint) (projectID : String) :
    Option TypedValue × Option String :=
  match pt with
  | none => (none, none)
  | some p =>
    match p.value with
    | MPointValue.otherVal =>
      (none, some "protoToMetricPoint: unknown Data type")
    | MPointValue.int64Val v => (some (TypedValue.int64Value v), none)
    | MPointValue.doubleVal v => (some (TypedValue.doubleValue v), none)
    | MPointValue.distributionVal dv =>
      let mean : Rat := if dv.count > 0 then dv.sum / (dv.count : Rat) else 0
      let insertZeroBound : Bool :=
        match dv.bucketOptions with
        | some bopts => shouldInsertZeroBound bopts.bounds
        | none => false
      let bce := metricBucketToBucketCountsAndExemplars dv.buckets
      (some (TypedValue.distributionValue {
        count := dv.count
        mean := mean
        sumOfSquaredDeviation := dv.sumOfSquaredDeviation
        bucketBounds := dv.bucketOptions.map
          (fun bopts => addZeroBoundOnCondition insertZeroBound bopts.bounds)
        bucketCounts := addZeroBucketCountOnCondition insertZeroBound bce.1
        exemplars := bce.2 }), none)

/-- `metricPointToMpbPoint` (metrics.go): wrap a converted value into a
`Point` with its interval; a nil point yields `(nil, nil)`, a conversion
error is propagated with a nil point. -/
def metricPointToMpbPoint (startTime : Option Int) (pt : Option MPoint)
    (projectID : String) : Option Point × Option String :=
  match pt with
  | none => (none, none)
  | some p =>
    match metricPointToMpbValue (some p) projectID with
    | (_, some e) => (none, some e)
    | (mptv, none) => (some { value := mptv, startTime := startTime, endTime := p.time }, none)

/-- `metricDescriptorTypeToMetricKind` (metrics.go): map a metric's
descriptor type to the backend metric kind and value type; a nil metric,
the Summary type and every unrecognized type map to
`(UNSPECIFIED, UNSPECIFIED)`. -/
def metricDescriptorTypeToMetricKind (m : Option MMetric) :
    MetricKind × MetricValueType :=
  match m with
  | none => (MetricKind.unspecified, MetricValueType.unspecified)
  | some m =>
    match m.descriptor.type with
    | MetricDataType.cumulativeInt64 => (MetricKind.cumulative, MetricValueType.int64)
    | MetricDataType.cumulativeFloat64 => (MetricKind.cumulative, MetricValueType.double)
    | MetricDataType.cumulativeDistribution => (MetricKind.cumulative, MetricValueType.distribution)
    | MetricDataType.gaugeFloat64 => (MetricKind.gauge, MetricValueType.double)
    | MetricDataType.gaugeInt64 => (MetricKind.gauge, MetricValueType.int64)
    | MetricDataType.gaugeDistribution => (MetricKind.gauge, MetricValueType.distribution)
    | MetricDataType.summary => (MetricKind.unspecified, MetricValueType.unspecified)
    | MetricDataType.other _ => (MetricKind.unspecified, MetricValueType.unspecified)

/-- An exporter's per-view/per-metric default label value (`labelValue`
in the source). -/
structure LabelVal where
  val : String
  desc : String
deriving DecidableEq

/-- The slice of `statsExporter` (and its `Options`) that the modelled
functions read. `sanitize` (file sanitize.go) and `metricTypeFromProto`
(metric-name prefix rewriting) are functions of this repository whose
definitions are not among the provided sources, so they are carried as
arbitrary function fields: every theorem below holds for all of them.
`resourceByDescriptor` models the `Options.ResourceByDescriptor` hook with
the (absent) `convertMonitoredResourceToPB` conversion folded into its
result. -/
structure StatsExporter where
  projectID : String
  resourceOpt : Option MonitoredResource
  resourceByDescriptor :
    Option (MDescriptor → List (String × String) → List (String × String) × MonitoredResource)
  defaultLabels : List (String × LabelVal)
  sanitize : String → String
  metricTypeFromProto : String → String

/-- Insert into a label map modelled as an association list: overwrite the
entry for the key if present, append otherwise (Go map assignment). -/
def mapInsert (m : List (String × String)) (k v : String) : List (String × String) :=
  if m.any (fun p => p.1 == k) then
    m.map (fun p => if p.1 == k then (k, v) else p)
  else
    m ++ [(k, v)]

/-- `metricLabelsToTsLabels` (metrics.go): length mismatch between keys and
values is an error; with no defaults and no keys the labels map stays nil;
otherwise defaults go in first and each `Present` label value is inserted
under its sanitized key. -/
def metricLabelsToTsLabels (sanitize : String → String)
    (defaults : List (String × LabelVal)) (labelKeys : List MLabelKey)
    (labelValues : List MLabelValue) :
    Option (List (String × String)) × Option String :=
  if labelKeys.length ≠ labelValues.length then
    (none, some ("length mismatch: len(labelKeys)=" ++ toString labelKeys.length
      ++ " len(labelValues)=" ++ toString labelValues.length))
  else if defaults.length + labelKeys.length = 0 then
    (none, none)
  else
    let withDefaults := defaults.foldl
      (fun m kv => mapInsert m (sanitize kv.1) kv.2.val) []
    let labels := (labelKeys.zip labelValues).foldl
      (fun m kv => if kv.2.present then mapInsert m (sanitize kv.1.key) kv.2.value else m)
      withDefaults
    (some labels, none)

/-- `metricRscToMpbRsc` (metrics.go): a nil resource falls back to the
configured resource or the global one; an empty type string becomes
"global"; labels are copied. -/
def metricRscToMpbRsc (se : StatsExporter) (rs : Option OCResource) : MonitoredResource :=
  match rs with
  | none =>
    match se.resourceOpt with
    | none => { type := "global", labels := [] }
    | some r => r
  | some rs =>
    { type := if rs.type = "" then "global" else rs.type
      labels := rs.labels }

/-- The loop body of `metricTsToMpbPoint` (metrics.go): convert the points
of one input time series in order; the first conversion error aborts with
`(nil, err)`. The `(none, none)` result of `metricPointToMpbPoint` cannot
arise here because the call site always passes a non-nil point. -/
def metricTsToMpbPoint (ts : MTimeSeries) (metricKind : MetricKind)
    (projectID : String) : List Point × Option String :=
  go ts.points
where
  go : List MPoint → List Point × Option String
    | [] => ([], none)
    | pt :: pts =>
      let startTime : Option Int :=
        if metricKind = MetricKind.gauge then none else some ts.startTime
      match metricPointToMpbPoint startTime (some pt) projectID with
      | (_, some e) => ([], some e)
      | (some spt, none) =>
        match go pts with
        | (rest, none) => (spt :: rest, none)
        | (_, some e) => ([], some e)
      | (none, none) => go pts

/-- `metricToMpbTs` (metrics.go): convert a whole metric into backend time
series. A nil metric errors; a metric whose kind maps to UNSPECIFIED
returns `(nil, nil)`; otherwise each input series is converted, and series
whose point or label conversion fails are skipped (`continue`) without
surfacing an error. -/
def metricToMpbTs (se : StatsExporter) (metric : Option MMetric) :
    List TimeSeries × Option String :=
  match metric with
  | none => ([], some errNilMetricOrMetricDescriptor)
  | some m =>
    let resource := metricRscToMpbRsc se m.resource
    let metricName := m.descriptor.name
    let metricType := se.metricTypeFromProto metricName
    let metricLabelKeys := m.descriptor.labelKeys
    let metricKind := (metricDescriptorTypeToMetricKind (some m)).1
    if metricKind = MetricKind.unspecified then
      ([], none)
    else
      let timeSeries := m.timeSeries.foldl (fun acc ts =>
        match metricTsToMpbPoint ts metricKind se.projectID with
        | (_, some _) => acc
        | (sdPoints, none) =>
          match metricLabelsToTsLabels se.sanitize se.defaultLabels metricLabelKeys ts.labelValues with
          | (_, some _) => acc
          | (labels, none) =>
            let lr : List (String × String) × MonitoredResource :=
              match se.resourceByDescriptor with
              | some hook =>
                let (l2, rsc) := hook m.descriptor (labels.getD [])
                if rsc.type = "" then (l2, { type := "global", labels := [] })
                else (l2, rsc)
              | none => (labels.getD [], resource)
            acc ++ [{ metric := { type := metricType, labels := lr.1 }
                      resource := lr.2
                      points := sdPoints }]) []
      (timeSeries, none)

/-! ## Descriptor cache (`createMetricDescriptorFromMetric`) -/

/-- `knownExternalMetricPrefixes` (stats.go). -/
def knownExternalMetricPrefixes : List String :=
  ["custom.googleapis.com/", "external.googleapis.com/", "workload.googleapis.com/"]

/-- `builtinMetric` (stats.go): a metric type is a built-in iff it starts
with none of the known external namespaces. -/
def builtinMetric (metricType : String) : Bool :=
  !(knownExternalMetricPrefixes.any
    (fun known => known.toList.isPrefixOf metricType.toList))

/-- One call of `createMetricDescriptorFromMetric` (metrics.go), as a
transition on the `se.metricDescriptors` cache (the set of names marked
created). The remote `createMetricDescriptor` call is external; its
outcome is the oracle `remoteOk`. The result triple is
`(new cache, whether a remote creation call was made, returned error)`.
(`metricToMpbMetricDescriptor` only fails on a nil metric, which cannot
occur here since a metric value is supplied.) -/
def createMetricDescriptorFromMetric (skipCMD : Bool)
    (metricTypeFromProto : String → String) (st : List String)
    (metric : MMetric) (remoteOk : Bool) : List String × Bool × Option String :=
  if skipCMD then
    (st, false, none)
  else
    let name := metric.descriptor.name
    if name ∈ st then
      (st, false, none)
    else if builtinMetric (metricTypeFromProto name) then
      (name :: st, false, none)
    else if remoteOk then
      (name :: st, true, none)
    else
      (st, true, some "createMetricDescriptor error")

/-- Run a sequence of `createMetricDescriptorFromMetric` calls, threading
the cache; returns the final cache and the per-call trace
`(metric name, made a remote call, returned error)`. -/
def runCreateMD (skipCMD : Bool) (metricTypeFromProto : String → String)
    (st : List String) :
    List (MMetric × Bool) → List String × List (String × Bool × Option String)
  | [] => (st, [])
  | (m, ok) :: rest =>
    let step := createMetricDescriptorFromMetric skipCMD metricTypeFromProto st m ok
    let r := runCreateMD skipCMD metricTypeFromProto step.1 rest
    (r.1, (m.descriptor.name, step.2.1, step.2.2) :: r.2)

/-- Number of calls in a trace that made a remote creation call for `name`
and succeeded (returned nil). -/
def countSuccessfulRemote (name : String) (trace : List (String × Bool × Option String)) : Nat :=
  trace.countP (fun e => decide (e.1 = name ∧ e.2.1 = true ∧ e.2.2 = none))

/-! ## The metrics batcher (`metricsbatcher.go`) -/

/-- `metricsBatcher`, with the requests handed to `reqsChan` modelled as
the ordered list `sent` (channels are modelled by the sequence of values
sent on them; the worker pool consuming them is outside this model). -/
structure MetricsBatcher where
  projectName : String
  allTss : List TimeSeries
  allErrs : List String
  droppedTimeSeries : Int
  sent : List CreateTimeSeriesRequest
deriving DecidableEq

/-- `newMetricsBatcher`: fresh batcher for a project (worker plumbing
outside the model). -/
def newMetricsBatcher (projectID : String) : MetricsBatcher :=
  { projectName := "projects/" ++ projectID
    allTss := []
    allErrs := []
    droppedTimeSeries := 0
    sent := [] }

/-- `metricsBatcher.recordDroppedTimeseries`. -/
def recordDroppedTimeseries (mb : MetricsBatcher) (numTimeSeries : Int)
    (errs : List String) : MetricsBatcher :=
  { mb with
    droppedTimeSeries := mb.droppedTimeSeries + numTimeSeries
    allErrs := mb.allErrs ++ errs }

/-- `metricsBatcher.sendReqToChan`: wrap the accumulator into a request and
hand it to the intake queue. -/
def sendReqToChan (mb : MetricsBatcher) : MetricsBatcher :=
  { mb with sent := mb.sent ++ [{ name := mb.projectName, timeSeries := mb.allTss }] }

/-- `metricsBatcher.addTimeSeries`: append to the accumulator; when it
reaches `maxTimeSeriesPerUpload`, flush it as a request and reset. -/
def addTimeSeries (mb : MetricsBatcher) (ts : TimeSeries) : MetricsBatcher :=
  let mb := { mb with allTss := mb.allTss ++ [ts] }
  if mb.allTss.length = maxTimeSeriesPerUpload then
    { sendReqToChan mb with allTss := [] }
  else
    mb

/-- The final error fold shared by `metricsBatcher.close` and
`uploadMetrics`: nil for no errors, the lone error for one, otherwise the
bracketed "; "-joined message. -/
def combineErrors (errs : List String) : Option String :=
  match errs with
  | [] => none
  | [e] => some e
  | errs => some ("[" ++ String.intercalate "; " errs ++ "]")

/-- `metricsBatcher.close`: flush the remaining non-empty accumulator as a
final request, drain each worker's response into the batcher via
`recordDroppedTimeseries`, then fold the accumulated errors. Worker
responses are supplied as data since the workers are concurrent
collaborators outside this model. -/
def close (mb : MetricsBatcher) (workerResps : List (Int × List String)) :
    MetricsBatcher × Option String :=
  let mb := if mb.allTss.length > 0 then sendReqToChan mb else mb
  let mb := workerResps.foldl (fun b r => recordDroppedTimeseries b r.1 r.2) mb
  (mb, combineErrors mb.allErrs)

/-- Submit a list of series one at a time (`addTimeSeries` per series). -/
def submitAll (mb : MetricsBatcher) (l : List TimeSeries) : MetricsBatcher :=
  l.foldl addTimeSeries mb

/-- The error fold at the end of `uploadMetrics` (metrics.go lines
136-147); the source duplicates the fold of `metricsBatcher.close`
verbatim, so the model shares `combineErrors`. -/
def uploadMetricsResult (errors : List String) : Option String :=
  combineErrors errors

/-! ## Partial-failure accounting (`droppedTimeSeriesFromMonitoringAPIError`)

The Go code matches the regular expression
`: timeSeries\[([0-9]+(?:-[0-9]+)?(?:,[0-9]+(?:-[0-9]+)?)*)\]` with
`FindAllStringSubmatch`. The scanner below is that regex specialized:
at each position it tries the literal `: timeSeries[`, then a greedy parse
of the bracketed range list, then `]`. Greedy parsing without backtracking
is exact here: the range body consumes only digits, `-` and `,`, so no
shorter parse can ever end at the required `]`. Matches are non-overlapping
and scanning resumes after each match, as `FindAllStringSubmatch` does. -/

/-- One `[0-9]+(?:-[0-9]+)?` item: returns the consumed characters (the
capture-group contribution) and the rest, or `none` when no digit leads. -/
def parseRangeItem (cs : List Char) : Option (List Char × List Char) :=
  let s := cs.span Char.isDigit
  if s.1.isEmpty then none
  else
    match s.2 with
    | '-' :: rest2 =>
      let s2 := rest2.span Char.isDigit
      if s2.1.isEmpty then some (s.1, s.2)
      else some (s.1 ++ '-' :: s2.1, s2.2)
    | _ => some (s.1, s.2)

/-- The `(?:,[0-9]+(?:-[0-9]+)?)*` tail, greedily. -/
def parseRangeTail : Nat → List Char → List Char × List Char
  | fuel + 1, ',' :: rest =>
    (match parseRangeItem rest with
     | some (item, rest2) =>
       let t := parseRangeTail fuel rest2
       (',' :: (item ++ t.1), t.2)
     | none => ([], ',' :: rest))
  | _, cs => ([], cs)

/-- The whole capture group `[0-9]+(?:-[0-9]+)?(?:,[0-9]+(?:-[0-9]+)?)*`. -/
def parseRangeBody (cs : List Char) : Option (List Char × List Char) :=
  match parseRangeItem cs with
  | none => none
  | some (item, rest) =>
    let t := parseRangeTail rest.length rest
    some (item ++ t.1, t.2)

/-- The literal part `: timeSeries[` of `timeSeriesErrRegex`. -/
def timeSeriesErrLit : List Char := ": timeSeries[".toList

/-- All capture groups of `timeSeriesErrRegex.FindAllStringSubmatch`,
leftmost first, non-overlapping. -/
def findTimeSeriesRanges : Nat → List Char → List (List Char)
  | 0, _ => []
  | _ + 1, [] => []
  | fuel + 1, c :: rest =>
    if timeSeriesErrLit.isPrefixOf (c :: rest) then
      match parseRangeBody ((c :: rest).drop timeSeriesErrLit.length) with
      | some (body, ']' :: rest2) => body :: findTimeSeriesRanges fuel rest2
      | _ => findTimeSeriesRanges fuel rest
    else
      findTimeSeriesRanges fuel rest

/-- All capture groups of `timeSeriesErrRegex` over an error message. -/
def timeSeriesErrMatches (errMsg : String) : List (List Char) :=
  findTimeSeriesRanges errMsg.toList.length errMsg.toList

/-- `strconv.Atoi` on the digit-only strings produced by the regex. -/
def atoi (cs : List Char) : Int :=
  Int.ofNat (cs.foldl (fun n c => 10 * n + (c.toNat - 48)) 0)

/-- The contribution of one comma-separated range token: split on `-`,
`min` is the first number, `max` is the second if there is one (else
`min`), contributing `max - min + 1`. -/
def droppedFromRange (rng : List Char) : Int :=
  let rngSlice := rng.splitOn '-'
  let mn := atoi (rngSlice.getD 0 [])
  let mx := if rngSlice.length > 1 then atoi (rngSlice.getD 1 []) else mn
  mx - mn + 1

/-- The fixed error message head checked by
`droppedTimeSeriesFromMonitoringAPIError`. -/
def writtenErrLit : List Char := "One or more TimeSeries could not be written:".toList

/-- Sum of the contributions of all parsed range tokens across all
matches. -/
def sumDroppedRanges (ms : List (List Char)) : Int :=
  ms.foldl
    (fun dropped m =>
      (m.splitOn ',').foldl (fun d rng => d + droppedFromRange rng) dropped)
    0

/-- `droppedTimeSeriesFromMonitoringAPIError` (metricsbatcher.go): if the
message does not start with the fixed head, or the regex finds no match,
the whole request counts as dropped; otherwise the parsed ranges are
summed. -/
def droppedTimeSeriesFromMonitoringAPIError (req : CreateTimeSeriesRequest)
    (errMsg : String) : Int :=
  let ms := timeSeriesErrMatches errMsg
  if ¬ (writtenErrLit.isPrefixOf errMsg.toList) ∨ ms.isEmpty then
    (req.timeSeries.length : Int)
  else
    sumDroppedRanges ms

/-! ## Concrete inputs used by the witnesses -/

/-- A time series with the given metric type and no labels. -/
def tsOfType (ty : String) : TimeSeries :=
  { metric := { type := ty, labels := [] }
    resource := { type := "global", labels := [] }
    points := [] }

/-- Five series whose signatures are `[A, A, B, A, C]` (signature "A"
repeated three times). -/
def seriesAABAC : List TimeSeries :=
  [tsOfType "a/b/c", tsOfType "a/b/c", tsOfType "x/y/z", tsOfType "a/b/c",
   tsOfType "p/y/z"]

/-- A request holding five time series. -/
def reqFive : CreateTimeSeriesRequest :=
  { name := "projects/p", timeSeries := List.replicate 5 (tsOfType "a/b/c") }

/-- A distribution: count 1, sum 11.9, bounds `[1/2, 1]`, two bucket
counts. -/
def distEx : MDistribution :=
  { count := 1
    sum := (119 : Rat) / 10
    sumOfSquaredDeviation := 0
    bucketOptions := some { bounds := [(1 : Rat) / 2, 1] }
    buckets := [{ count := 1, exemplar := none }, { count := 0, exemplar := none }] }

/-- A distribution whose first bucket boundary is 0. -/
def distZeroBoundEx : MDistribution :=
  { distEx with bucketOptions := some { bounds := [(0 : Rat), 1] } }

/-- A point carrying `distEx`. -/
def distPointEx : MPoint :=
  { time := 7, value := MPointValue.distributionVal distEx }

/-- A point carrying `distZeroBoundEx`. -/
def distZeroBoundPointEx : MPoint :=
  { time := 7, value := MPointValue.distributionVal distZeroBoundEx }

/-- A metric of Summary type (whose kind maps to UNSPECIFIED). -/
def summaryMetricEx : MMetric :=
  { descriptor :=
      { name := "m", description := "", unit := "1"
        type := MetricDataType.summary, labelKeys := [] }
    resource := none
    timeSeries := [{ labelValues := [], points := [], startTime := 0 }] }

/-- A concrete exporter for witnesses (identity rewriting functions). -/
def seEx : StatsExporter :=
  { projectID := "p"
    resourceOpt := none
    resourceByDescriptor := none
    defaultLabels := []
    sanitize := fun s => s
    metricTypeFromProto := fun s => s }

/-! ## Theorems -/

/-- C3: converting a distribution point whose bucket-boundary list is
non-empty: a first boundary strictly greater than 0 prepends a synthetic
`0.0` boundary and a `0` count; a first boundary that is not greater than 0
leaves both lists unchanged; and equal input lengths give equal output
lengths. -/
theorem metricPointToMpbValue_zero_bound (p : MPoint) (dv : MDistribution)
    (projectID : String) (b : Rat) (bs : List Rat)
    (hv : p.value = MPointValue.distributionVal dv)
    (hb : dv.bucketOptions = some { bounds := b :: bs }) :
    ∃ out : DistributionValue,
      (metricPointToMpbValue (some p) projectID).1
        = some (TypedValue.distributionValue out) ∧
      (0 < b → out.bucketBounds = some (0 :: b :: bs) ∧
        out.bucketCounts = 0 :: dv.buckets.map Bucket.count) ∧
      (¬ 0 < b → out.bucketBounds = some (b :: bs) ∧
        out.bucketCounts = dv.buckets.map Bucket.count) ∧
      ((b :: bs).length = dv.buckets.length →
        ∀ obs, out.bucketBounds = some obs → obs.length = out.bucketCounts.length) := by
  obtain ⟨tm, pv⟩ := p
  simp only at hv
  subst hv
  simp only [metricPointToMpbValue, hb, shouldInsertZeroBound,
    addZeroBoundOnCondition, addZeroBucketCountOnCondition,
    metricBucketToBucketCountsAndExemplars, Option.map_some']
  refine ⟨_, rfl, ?_, ?_, ?_⟩
  · intro hpos
    simp [hpos]
  · intro hneg
    simp [hneg]
  · intro hlen obs hobs
    by_cases hpos : 0 < b
    · simp only [decide_eq_true_eq, if_pos hpos] at hobs ⊢
      cases hobs
      simpa using hlen
    · simp only [decide_eq_true_eq, if_neg hpos] at hobs ⊢
      cases hobs
      simpa using hlen

/-- C9: the converted mean of a distribution point is exactly 0 when the
count is 0 (the division is never taken), and exactly `sum / count` when
the count is positive. -/
theorem metricPointToMpbValue_mean (p : MPoint) (dv : MDistribution)
    (projectID : String)
    (hv : p.value = MPointValue.distributionVal dv) :
    ∃ out : DistributionValue,
      (metricPointToMpbValue (some p) projectID).1
        = some (TypedValue.distributionValue out) ∧
      (dv.count = 0 → out.mean = 0) ∧
      (0 < dv.count → out.mean = dv.sum / (dv.count : Rat)) := by
  obtain ⟨tm, pv⟩ := p
  simp only at hv
  subst hv
  simp only [metricPointToMpbValue]
  refine ⟨_, rfl, ?_, ?_⟩
  · intro h0
    simp [h0]
  · intro hpos
    simp [if_pos hpos]

/-- C8: the signature of a time series is its metric type joined with its
sorted label values, label keys excluded: two metrics with equal types and
equal sorted label-value lists get equal signatures, whatever their keys. -/
theorem metricSignature_ignores_keys (m1 m2 : Metric)
    (hty : m1.type = m2.type)
    (hvals : sortStrings (m1.labels.map Prod.snd)
      = sortStrings (m2.labels.map Prod.snd)) :
    metricSignature m1 = metricSignature m2 := by
  simp only [metricSignature, hty, hvals]

/-- C10: a non-nil metric whose descriptor type maps to the UNSPECIFIED
metric kind (Summary, or any unrecognized type) converts to an empty
time-series list with a nil error: the metric is dropped silently. -/
theorem metricToMpbTs_unspecified_dropped (se : StatsExporter) (m : MMetric)
    (h : (metricDescriptorTypeToMetricKind (some m)).1 = MetricKind.unspecified) :
    metricToMpbTs se (some m) = ([], none) := by
  simp [metricToMpbTs, h]

/-- Witness for C3: a first bound of 1/2 > 0 on `distEx` (the hypotheses
hold and the conversion of a concrete distribution inserts the zero
bucket; the companion `decide` conjunct shows the fully evaluated
output). -/
theorem metricPointToMpbValue_zero_bound_witness :
    distPointEx.value = MPointValue.distributionVal distEx ∧
    distEx.bucketOptions = some { bounds := (1 : Rat) / 2 :: [1] } ∧
    (∃ out : DistributionValue,
      (metricPointToMpbValue (some distPointEx) "p").1
        = some (TypedValue.distributionValue out) ∧
      (0 < (1 : Rat) / 2 → out.bucketBounds = some (0 :: (1 : Rat) / 2 :: [1]) ∧
        out.bucketCounts = 0 :: distEx.buckets.map Bucket.count) ∧
      (¬ 0 < (1 : Rat) / 2 → out.bucketBounds = some ((1 : Rat) / 2 :: [1]) ∧
        out.bucketCounts = distEx.buckets.map Bucket.count) ∧
      (((1 : Rat) / 2 :: [1]).length = distEx.buckets.length →
        ∀ obs, out.bucketBounds = some obs → obs.length = out.bucketCounts.length)) ∧
    (∃ out : DistributionValue,
      (metricPointToMpbValue (some distZeroBoundPointEx) "p").1
        = some (TypedValue.distributionValue out) ∧
      (0 < (0 : Rat) → out.bucketBounds = some (0 :: (0 : Rat) :: [1]) ∧
        out.bucketCounts = 0 :: distZeroBoundEx.buckets.map Bucket.count) ∧
      (¬ 0 < (0 : Rat) → out.bucketBounds = some ((0 : Rat) :: [1]) ∧
        out.bucketCounts = distZeroBoundEx.buckets.map Bucket.count) ∧
      (((0 : Rat) :: [1]).length = distZeroBoundEx.buckets.length →
        ∀ obs, out.bucketBounds = some obs → obs.length = out.bucketCounts.length)) :=
  ⟨rfl, rfl,
   metricPointToMpbValue_zero_bound distPointEx distEx "p" ((1 : Rat) / 2) [1] rfl rfl,
   metricPointToMpbValue_zero_bound distZeroBoundPointEx distZeroBoundEx "p" 0 [1] rfl rfl⟩

/-- Witness for C9: `distEx` has count 1 and sum 11.9; its converted mean
is exactly 11.9. -/
theorem metricPointToMpbValue_mean_witness :
    distPointEx.value = MPointValue.distributionVal distEx ∧
    (∃ out : DistributionValue,
      (metricPointToMpbValue (some distPointEx) "p").1
        = some (TypedValue.distributionValue out) ∧
      (distEx.count = 0 → out.mean = 0) ∧
      (0 < distEx.count → out.mean = distEx.sum / (distEx.count : Rat))) ∧
    distEx.sum / (distEx.count : Rat) = (119 : Rat) / 10 :=
  ⟨rfl, metricPointToMpbValue_mean distPointEx distEx "p" rfl,
   by simp [distEx]⟩

/-- Witness for C8: two metrics with the same type, different label keys
and the same label values in a different order have equal signatures. -/
theorem metricSignature_ignores_keys_witness :
    (Metric.mk "t" [("k1", "v2"), ("k2", "v1")]).type
      = (Metric.mk "t" [("a", "v1"), ("b", "v2")]).type ∧
    sortStrings ((Metric.mk "t" [("k1", "v2"), ("k2", "v1")]).labels.map Prod.snd)
      = sortStrings ((Metric.mk "t" [("a", "v1"), ("b", "v2")]).labels.map Prod.snd) ∧
    metricSignature (Metric.mk "t" [("k1", "v2"), ("k2", "v1")])
      = metricSignature (Metric.mk "t" [("a", "v1"), ("b", "v2")]) :=
  ⟨rfl, by decide,
   metricSignature_ignores_keys _ _ rfl (by decide)⟩

/-- Witness for C10: a Summary-typed metric maps to the UNSPECIFIED kind
and is dropped with a nil error. -/
theorem metricToMpbTs_unspecified_dropped_witness :
    (metricDescriptorTypeToMetricKind (some summaryMetricEx)).1 = MetricKind.unspecified ∧
    metricToMpbTs seEx (some summaryMetricEx) = ([], none) :=
  ⟨rfl, metricToMpbTs_unspecified_dropped seEx summaryMetricEx rfl⟩

/-- `sendReqToChan` leaves the accumulated errors unchanged. -/
theorem sendReqToChan_allErrs (mb : MetricsBatcher) :
    (sendReqToChan mb).allErrs = mb.allErrs := rfl

/-- Draining worker responses appends their error lists in order. -/
theorem drain_allErrs (wr : List (Int × List String)) :
    ∀ mb : MetricsBatcher,
      (wr.foldl (fun b r => recordDroppedTimeseries b r.1 r.2) mb).allErrs
        = mb.allErrs ++ (wr.map Prod.snd).flatten := by
  induction wr with
  | nil => intro mb; simp
  | cons r rest ih =>
    intro mb
    simp only [List.foldl_cons, List.map_cons, List.flatten_cons]
    rw [ih]
    simp [recordDroppedTimeseries]

/-- The error returned by `close` is the fold of the batcher's errors plus
all drained worker errors. -/
theorem close_snd (mb : MetricsBatcher) (wr : List (Int × List String)) :
    (close mb wr).2 = combineErrors (mb.allErrs ++ (wr.map Prod.snd).flatten) := by
  unfold close
  by_cases h : mb.allTss.length > 0 <;>
    simp [h, drain_allErrs, sendReqToChan_allErrs]

/-- `combineErrors` on two or more errors produces the joined message. -/
theorem combineErrors_join (errs : List String) (h : 2 ≤ errs.length) :
    combineErrors errs = some ("[" ++ String.intercalate "; " errs ++ "]") := by
  match errs, h with
  | e1 :: e2 :: rest, _ => rfl

/-- C7: both `metricsBatcher.close` and the `uploadMetrics` fold return nil
for zero accumulated errors, the lone error itself for exactly one, and
otherwise one error whose message is the bracketed "; "-joined
concatenation of all the accumulated errors. -/
theorem exportError_trichotomy (mb : MetricsBatcher)
    (wr : List (Int × List String)) (errors : List String) :
    (mb.allErrs ++ (wr.map Prod.snd).flatten = [] → (close mb wr).2 = none) ∧
    (∀ e, mb.allErrs ++ (wr.map Prod.snd).flatten = [e] → (close mb wr).2 = some e) ∧
    (2 ≤ (mb.allErrs ++ (wr.map Prod.snd).flatten).length →
      (close mb wr).2 = some ("[" ++
        String.intercalate "; " (mb.allErrs ++ (wr.map Prod.snd).flatten) ++ "]")) ∧
    (errors = [] → uploadMetricsResult errors = none) ∧
    (∀ e, errors = [e] → uploadMetricsResult errors = some e) ∧
    (2 ≤ errors.length → uploadMetricsResult errors
      = some ("[" ++ String.intercalate "; " errors ++ "]")) := by
  refine ⟨?_, ?_, ?_, ?_, ?_, ?_⟩
  · intro h; rw [close_snd, h]; rfl
  · intro e h; rw [close_snd, h]; rfl
  · intro h; rw [close_snd, combineErrors_join _ h]
  · intro h; rw [h]; rfl
  · intro e h; rw [h]; rfl
  · intro h; exact combineErrors_join _ h

/-- Witness for C7: a batcher holding one error plus one worker error
yields the joined two-error message; singleton and empty cases evaluated
concretely. -/
theorem exportError_trichotomy_witness :
    ({ newMetricsBatcher "p" with allErrs := ["e1"] } : MetricsBatcher).allErrs
        ++ ([((0 : Int), ["e2"])].map Prod.snd).flatten = ["e1", "e2"] ∧
    2 ≤ (["e1", "e2"] : List String).length ∧
    (close { newMetricsBatcher "p" with allErrs := ["e1"] } [((0 : Int), ["e2"])]).2
      = some "[e1; e2]" ∧
    uploadMetricsResult [] = none ∧
    uploadMetricsResult ["only"] = some "only" := by
  refine ⟨by decide, by decide, ?_, ?_, ?_⟩
  · have h := (exportError_trichotomy
      { newMetricsBatcher "p" with allErrs := ["e1"] } [((0 : Int), ["e2"])] []).2.2.1
    rw [h (by decide)]
    rfl
  · exact (exportError_trichotomy (newMetricsBatcher "p") [] []).2.2.2.1 rfl
  · exact (exportError_trichotomy (newMetricsBatcher "p") [] ["only"]).2.2.2.2.1 "only" rfl

/-- C4: when the backend error starts with the fixed head and the regex
recognizes bracketed index/range tokens, the dropped count is the sum of
`max - min + 1` over all parsed tokens; any unrecognized message drops the
whole request. Concretely on a 5-series request: `timeSeries[2]` yields 1,
`timeSeries[0-3,7]` yields 5, and an unrecognized message yields 5. -/
theorem droppedTimeSeries_characterization (req : CreateTimeSeriesRequest)
    (msg : String) :
    (writtenErrLit.isPrefixOf msg.toList = true → timeSeriesErrMatches msg ≠ [] →
      droppedTimeSeriesFromMonitoringAPIError req msg
        = sumDroppedRanges (timeSeriesErrMatches msg)) ∧
    (writtenErrLit.isPrefixOf msg.toList = false ∨ timeSeriesErrMatches msg = [] →
      droppedTimeSeriesFromMonitoringAPIError req msg
        = (req.timeSeries.length : Int)) ∧
    droppedTimeSeriesFromMonitoringAPIError reqFive
      "One or more TimeSeries could not be written: err: timeSeries[2]" = 1 ∧
    droppedTimeSeriesFromMonitoringAPIError reqFive
      "One or more TimeSeries could not be written: err: timeSeries[0-3,7]" = 5 ∧
    droppedTimeSeriesFromMonitoringAPIError reqFive
      "deadline exceeded" = 5 := by
  refine ⟨?_, ?_, by decide, by decide, by decide⟩
  · intro h1 h2
    simp only [droppedTimeSeriesFromMonitoringAPIError]
    rw [if_neg (by push_neg; exact ⟨h1, by simpa using h2⟩)]
  · intro h
    rcases h with h | h
    · simp only [droppedTimeSeriesFromMonitoringAPIError]
      rw [if_pos (Or.inl (by rw [h]; simp))]
    · simp only [droppedTimeSeriesFromMonitoringAPIError]
      rw [if_pos (Or.inr (by simp [h]))]

/-- Witness for C4: the recognized-message hypotheses hold for the range
message `timeSeries[0-3,7]`, and the dropped count equals the parsed-range
sum. -/
theorem droppedTimeSeries_characterization_witness :
    writtenErrLit.isPrefixOf
      "One or more TimeSeries could not be written: err: timeSeries[0-3,7]".toList = true ∧
    timeSeriesErrMatches
      "One or more TimeSeries could not be written: err: timeSeries[0-3,7]" ≠ [] ∧
    droppedTimeSeriesFromMonitoringAPIError reqFive
        "One or more TimeSeries could not be written: err: timeSeries[0-3,7]"
      = sumDroppedRanges (timeSeriesErrMatches
        "One or more TimeSeries could not be written: err: timeSeries[0-3,7]") ∧
    droppedTimeSeriesFromMonitoringAPIError reqFive "deadline exceeded"
      = (reqFive.timeSeries.length : Int) :=
  ⟨by decide, by decide,
   (droppedTimeSeries_characterization reqFive
     "One or more TimeSeries could not be written: err: timeSeries[0-3,7]").1
     (by decide) (by decide),
   (droppedTimeSeries_characterization reqFive "deadline exceeded").2.1
     (Or.inr (by decide))⟩

/-- With `SkipCMD` set, a call is a no-op that makes no remote call. -/
theorem createMD_eq_skip (f : String → String) (st : List String) (m : MMetric)
    (ok : Bool) :
    createMetricDescriptorFromMetric true f st m ok = (st, false, none) := rfl

/-- A call for a name already marked created is a no-op. -/
theorem createMD_eq_mem (f : String → String) (st : List String) (m : MMetric)
    (ok : Bool) (hmem : m.descriptor.name ∈ st) :
    createMetricDescriptorFromMetric false f st m ok = (st, false, none) := by
  unfold createMetricDescriptorFromMetric
  rw [if_neg (by simp), if_pos hmem]

/-- A first call for a built-in name marks it without a remote call. -/
theorem createMD_eq_builtin (f : String → String) (st : List String)
    (m : MMetric) (ok : Bool) (hmem : m.descriptor.name ∉ st)
    (hb : builtinMetric (f m.descriptor.name) = true) :
    createMetricDescriptorFromMetric false f st m ok
      = (m.descriptor.name :: st, false, none) := by
  unfold createMetricDescriptorFromMetric
  rw [if_neg (by simp), if_neg hmem, if_pos (by simp [hb])]

/-- A first call for a non-built-in name whose remote creation succeeds
marks the name. -/
theorem createMD_eq_ok (f : String → String) (st : List String) (m : MMetric)
    (hmem : m.descriptor.name ∉ st)
    (hb : builtinMetric (f m.descriptor.name) = false) :
    createMetricDescriptorFromMetric false f st m true
      = (m.descriptor.name :: st, true, none) := by
  unfold createMetricDescriptorFromMetric
  rw [if_neg (by simp), if_neg hmem, if_neg (by simp [hb]), if_pos (by simp)]

/-- A first call for a non-built-in name whose remote creation fails leaves
the cache unchanged and returns the error. -/
theorem createMD_eq_fail (f : String → String) (st : List String) (m : MMetric)
    (hmem : m.descriptor.name ∉ st)
    (hb : builtinMetric (f m.descriptor.name) = false) :
    createMetricDescriptorFromMetric false f st m false
      = (st, true, some "createMetricDescriptor error") := by
  unfold createMetricDescriptorFromMetric
  rw [if_neg (by simp), if_neg hmem, if_neg (by simp [hb]), if_neg (by simp)]

/-- A name marked created stays marked across any one call. -/
theorem createMD_mono (skip : Bool) (f : String → String) (st : List String)
    (m : MMetric) (ok : Bool) (name : String) (h : name ∈ st) :
    name ∈ (createMetricDescriptorFromMetric skip f st m ok).1 := by
  cases skip with
  | true => rw [createMD_eq_skip]; exact h
  | false =>
    by_cases hmem : m.descriptor.name ∈ st
    · rw [createMD_eq_mem f st m ok hmem]; exact h
    · by_cases hb : builtinMetric (f m.descriptor.name)
      · rw [createMD_eq_builtin f st m ok hmem hb]
        exact List.mem_cons_of_mem _ h
      · cases ok with
        | true =>
          rw [createMD_eq_ok f st m hmem (by simpa using hb)]
          exact List.mem_cons_of_mem _ h
        | false =>
          rw [createMD_eq_fail f st m hmem (by simpa using hb)]
          exact h

/-- No successful remote creation call is ever made for a name already
marked created. -/
theorem runCreateMD_marked_zero (skip : Bool) (f : String → String)
    (calls : List (MMetric × Bool)) :
    ∀ st : List String, ∀ name : String, name ∈ st →
      countSuccessfulRemote name (runCreateMD skip f st calls).2 = 0 := by
  induction calls with
  | nil => intro st name _; rfl
  | cons c rest ih =>
    intro st name hmem
    obtain ⟨m, ok⟩ := c
    simp only [runCreateMD, countSuccessfulRemote, List.countP_cons]
    rw [← countSuccessfulRemote, ih _ name (createMD_mono skip f st m ok name hmem)]
    simp only [Nat.zero_add]
    by_cases hname : m.descriptor.name = name
    · subst hname
      cases skip with
      | true => rw [createMD_eq_skip]; simp
      | false => rw [createMD_eq_mem f st m ok hmem]; simp
    · simp [hname]

/-- Under `SkipCMD`, the whole cache-and-trace run for a call list reduces
to no-op steps. -/
theorem runCreateMD_skip_zero (f : String → String)
    (calls : List (MMetric × Bool)) :
    ∀ st : List String, ∀ name : String,
      countSuccessfulRemote name (runCreateMD true f st calls).2 = 0 := by
  induction calls with
  | nil => intro st name; rfl
  | cons c rest ih =>
    intro st name
    obtain ⟨m, ok⟩ := c
    simp only [runCreateMD, countSuccessfulRemote, List.countP_cons]
    rw [← countSuccessfulRemote, createMD_eq_skip]
    rw [ih st name]
    simp

/-- At most one successful remote creation per name, whatever the initial
cache and call sequence. -/
theorem runCreateMD_once (skip : Bool) (f : String → String)
    (calls : List (MMetric × Bool)) :
    ∀ st : List String, ∀ name : String,
      countSuccessfulRemote name (runCreateMD skip f st calls).2 ≤ 1 := by
  cases skip with
  | true =>
    intro st name
    rw [runCreateMD_skip_zero f calls st name]
    omega
  | false =>
    induction calls with
    | nil => intro st name; simp [runCreateMD, countSuccessfulRemote]
    | cons c rest ih =>
      intro st name
      obtain ⟨m, ok⟩ := c
      simp only [runCreateMD, countSuccessfulRemote, List.countP_cons]
      rw [← countSuccessfulRemote]
      by_cases hname : m.descriptor.name = name
      · subst hname
        by_cases hmem : m.descriptor.name ∈ st
        · rw [createMD_eq_mem f st m ok hmem]
          have h0 := runCreateMD_marked_zero false f rest st m.descriptor.name hmem
          rw [h0]
          simp
        · by_cases hb : builtinMetric (f m.descriptor.name)
          · rw [createMD_eq_builtin f st m ok hmem hb]
            have h0 := runCreateMD_marked_zero false f rest
              (m.descriptor.name :: st) m.descriptor.name (by simp)
            rw [h0]
            simp
          · cases ok with
            | true =>
              rw [createMD_eq_ok f st m hmem (by simpa using hb)]
              have h0 := runCreateMD_marked_zero false f rest
                (m.descriptor.name :: st) m.descriptor.name (by simp)
              rw [h0]
              simp
            | false =>
              rw [createMD_eq_fail f st m hmem (by simpa using hb)]
              have h1 := ih st m.descriptor.name
              simp only [decide_eq_true_eq]
              rw [if_neg (by simp)]
              omega
      · rw [if_neg (by simp [hname])]
        simpa using ih _ name

/-- C5: across any sequence of calls to `createMetricDescriptorFromMetric`,
at most one successful remote creation is ever made per metric name; a
call for a name already marked created (after a success or a built-in
sighting) makes no remote call and returns nil; a first call for an
unmarked built-in name marks it without a remote call; and a failed remote
creation leaves the cache unchanged while a later call attempts the remote
creation again. -/
theorem createMetricDescriptor_once (skip : Bool) (f : String → String)
    (st : List String) (calls : List (MMetric × Bool)) (name : String)
    (m : MMetric) (ok : Bool) :
    countSuccessfulRemote name (runCreateMD skip f st calls).2 ≤ 1 ∧
    (m.descriptor.name ∈ st →
      createMetricDescriptorFromMetric skip f st m ok = (st, false, none)) ∧
    (skip = false → m.descriptor.name ∉ st →
      builtinMetric (f m.descriptor.name) = true →
      createMetricDescriptorFromMetric skip f st m ok
        = (m.descriptor.name :: st, false, none)) ∧
    (skip = false → m.descriptor.name ∉ st →
      builtinMetric (f m.descriptor.name) = false →
      createMetricDescriptorFromMetric skip f st m false
          = (st, true, some "createMetricDescriptor error") ∧
        (createMetricDescriptorFromMetric skip f st m ok).2.1 = true) := by
  refine ⟨runCreateMD_once skip f calls st name, ?_, ?_, ?_⟩
  · intro hmem
    cases skip with
    | true => exact createMD_eq_skip f st m ok
    | false => exact createMD_eq_mem f st m ok hmem
  · intro hskip hmem hb
    subst hskip
    exact createMD_eq_builtin f st m ok hmem hb
  · intro hskip hmem hb
    subst hskip
    refine ⟨createMD_eq_fail f st m hmem hb, ?_⟩
    cases ok with
    | true => rw [createMD_eq_ok f st m hmem hb]
    | false => rw [createMD_eq_fail f st m hmem hb]

/-- Witness for C5: three calls for the same non-built-in name (fail, then
succeed, then hit the cache) make exactly one successful remote call; the
cached no-op, the built-in short-circuit and the retry-after-failure are
instantiated concretely. -/
theorem createMetricDescriptor_once_witness :
    countSuccessfulRemote "m"
      (runCreateMD false (fun _ => "custom.googleapis.com/x") []
        [(summaryMetricEx, false), (summaryMetricEx, true), (summaryMetricEx, true)]).2 ≤ 1 ∧
    countSuccessfulRemote "m"
      (runCreateMD false (fun _ => "custom.googleapis.com/x") []
        [(summaryMetricEx, false), (summaryMetricEx, true), (summaryMetricEx, true)]).2 = 1 ∧
    summaryMetricEx.descriptor.name ∈ (["m"] : List String) ∧
    createMetricDescriptorFromMetric false (fun _ => "custom.googleapis.com/x")
      ["m"] summaryMetricEx true = (["m"], false, none) ∧
    builtinMetric ((fun _ => "builtin/metric") summaryMetricEx.descriptor.name) = true ∧
    createMetricDescriptorFromMetric false (fun _ => "builtin/metric")
      [] summaryMetricEx true = (["m"], false, none) ∧
    builtinMetric ((fun _ => "custom.googleapis.com/x") summaryMetricEx.descriptor.name) = false ∧
    createMetricDescriptorFromMetric false (fun _ => "custom.googleapis.com/x")
      [] summaryMetricEx false = ([], true, some "createMetricDescriptor error") :=
  ⟨(createMetricDescriptor_once false (fun _ => "custom.googleapis.com/x") []
      [(summaryMetricEx, false), (summaryMetricEx, true), (summaryMetricEx, true)]
      "m" summaryMetricEx true).1,
   by decide, by decide,
   (createMetricDescriptor_once false (fun _ => "custom.googleapis.com/x")
      ["m"] [] "m" summaryMetricEx true).2.1 (by decide),
   by decide,
   (createMetricDescriptor_once false (fun _ => "builtin/metric")
      [] [] "m" summaryMetricEx true).2.2.1 rfl (by decide) (by decide),
   by decide,
   ((createMetricDescriptor_once false (fun _ => "custom.googleapis.com/x")
      [] [] "m" summaryMetricEx true).2.2.2 rfl (by decide) (by decide)).1⟩

/-- Draining worker responses leaves the sent-request sequence unchanged. -/
theorem drain_sent (wr : List (Int × List String)) :
    ∀ mb : MetricsBatcher,
      (wr.foldl (fun b r => recordDroppedTimeseries b r.1 r.2) mb).sent = mb.sent := by
  induction wr with
  | nil => intro mb; rfl
  | cons r rest ih =>
    intro mb
    simp only [List.foldl_cons]
    rw [ih]
    rfl

/-- `addTimeSeries` flushes exactly when the accumulator reaches the cap,
and then resets the accumulator. -/
theorem addTimeSeries_step (mb : MetricsBatcher) (ts : TimeSeries) :
    ((addTimeSeries mb ts).sent
      = if (mb.allTss ++ [ts]).length = maxTimeSeriesPerUpload
        then mb.sent ++ [{ name := mb.projectName, timeSeries := mb.allTss ++ [ts] }]
        else mb.sent) ∧
    ((addTimeSeries mb ts).allTss
      = if (mb.allTss ++ [ts]).length = maxTimeSeriesPerUpload
        then [] else mb.allTss ++ [ts]) ∧
    (addTimeSeries mb ts).projectName = mb.projectName := by
  unfold addTimeSeries sendReqToChan
  simp only [List.length_append, List.length_singleton]
  by_cases h : mb.allTss.length + 1 = maxTimeSeriesPerUpload <;> simp [h]

/-- Invariant of repeated submission: the accumulator stays below the cap,
every flushed request holds exactly the cap, and the flushed requests plus
the accumulator hold exactly the submitted series in order. -/
theorem submitAll_invariant (l : List TimeSeries) :
    ∀ mb : MetricsBatcher,
      mb.allTss.length < maxTimeSeriesPerUpload →
      (∀ r ∈ mb.sent, r.timeSeries.length = maxTimeSeriesPerUpload) →
      (submitAll mb l).allTss.length < maxTimeSeriesPerUpload ∧
      (∀ r ∈ (submitAll mb l).sent, r.timeSeries.length = maxTimeSeriesPerUpload) ∧
      ((submitAll mb l).sent.map (fun r => r.timeSeries)).flatten
          ++ (submitAll mb l).allTss
        = (mb.sent.map (fun r => r.timeSeries)).flatten ++ mb.allTss ++ l := by
  induction l with
  | nil =>
    intro mb h1 h2
    exact ⟨h1, h2, by simp [submitAll]⟩
  | cons t rest ih =>
    intro mb h1 h2
    have hstep : submitAll mb (t :: rest) = submitAll (addTimeSeries mb t) rest := rfl
    rw [hstep]
    by_cases hfull : (mb.allTss ++ [t]).length = maxTimeSeriesPerUpload
    · have ha : addTimeSeries mb t =
        { mb with allTss := []
                  sent := mb.sent ++
                    [{ name := mb.projectName, timeSeries := mb.allTss ++ [t] }] } := by
        unfold addTimeSeries sendReqToChan
        simp [hfull]
      rw [ha]
      have h2' : ∀ r ∈ mb.sent ++
          [CreateTimeSeriesRequest.mk mb.projectName (mb.allTss ++ [t])],
          r.timeSeries.length = maxTimeSeriesPerUpload := by
        intro r hr
        rcases List.mem_append.1 hr with hr | hr
        · exact h2 r hr
        · simp only [List.mem_singleton] at hr
          subst hr
          exact hfull
      have := ih { mb with allTss := []
                           sent := mb.sent ++
                             [{ name := mb.projectName, timeSeries := mb.allTss ++ [t] }] }
        (by simp [maxTimeSeriesPerUpload]) h2'
      refine ⟨this.1, this.2.1, ?_⟩
      rw [this.2.2]
      simp [List.append_assoc]
    · have ha : addTimeSeries mb t = { mb with allTss := mb.allTss ++ [t] } := by
        unfold addTimeSeries sendReqToChan
        have hfull2 : ¬ mb.allTss.length + 1 = maxTimeSeriesPerUpload := by
          simpa using hfull
        simp [hfull2]
      rw [ha]
      have hlt : (mb.allTss ++ [t]).length < maxTimeSeriesPerUpload := by
        simp only [List.length_append, List.length_singleton]
        simp only [List.length_append, List.length_singleton] at hfull
        omega
      have := ih { mb with allTss := mb.allTss ++ [t] } hlt h2
      refine ⟨this.1, this.2.1, ?_⟩
      rw [this.2.2]
      simp [List.append_assoc]

/-- A flatten of lists of equal length `c` has length `c` times the count. -/
theorem flatten_const_length {α : Type} (L : List (List α)) (c : Nat)
    (h : ∀ x ∈ L, x.length = c) : L.flatten.length = c * L.length := by
  induction L with
  | nil => simp
  | cons x rest ih =>
    simp only [List.flatten_cons, List.length_append, List.length_cons]
    rw [h x (by simp), ih (fun y hy => h y (by simp [hy]))]
    ring

/-- C6: submitting K series one at a time and closing sends exactly
`⌈K / 200⌉` requests, each holding at most 200 series and together holding
all K in order; `addTimeSeries` flushes exactly when the accumulator
reaches the cap and resets it; `close` flushes the remaining non-empty
accumulator as one final request. -/
theorem batcher_requests (pid : String) (l : List TimeSeries)
    (mb : MetricsBatcher) (ts : TimeSeries) (wr : List (Int × List String)) :
    ((close (submitAll (newMetricsBatcher pid) l) []).1.sent.length
      = (l.length + (maxTimeSeriesPerUpload - 1)) / maxTimeSeriesPerUpload) ∧
    (∀ r ∈ (close (submitAll (newMetricsBatcher pid) l) []).1.sent,
      r.timeSeries.length ≤ maxTimeSeriesPerUpload) ∧
    (((close (submitAll (newMetricsBatcher pid) l) []).1.sent.map
        (fun r => r.timeSeries)).flatten = l) ∧
    ((addTimeSeries mb ts).sent
      = if (mb.allTss ++ [ts]).length = maxTimeSeriesPerUpload
        then mb.sent ++ [{ name := mb.projectName, timeSeries := mb.allTss ++ [ts] }]
        else mb.sent) ∧
    ((addTimeSeries mb ts).allTss
      = if (mb.allTss ++ [ts]).length = maxTimeSeriesPerUpload
        then [] else mb.allTss ++ [ts]) ∧
    (mb.allTss ≠ [] → ((close mb wr).1).sent
      = mb.sent ++ [{ name := mb.projectName, timeSeries := mb.allTss }]) := by
  have inv := submitAll_invariant l (newMetricsBatcher pid)
    (by simp [newMetricsBatcher, maxTimeSeriesPerUpload])
    (by simp [newMetricsBatcher])
  set smb := submitAll (newMetricsBatcher pid) l with hsmb
  obtain ⟨hlt, hall, hcat⟩ := inv
  simp only [newMetricsBatcher, List.map_nil, List.flatten_nil, List.nil_append] at hcat
  have hflat : ((smb.sent.map (fun r => r.timeSeries)).flatten).length
      = maxTimeSeriesPerUpload * smb.sent.length := by
    rw [flatten_const_length (smb.sent.map (fun r => r.timeSeries)) maxTimeSeriesPerUpload
      (by intro x hx
          obtain ⟨r, hr, hx⟩ := List.mem_map.1 hx
          subst hx
          exact hall r hr)]
    simp
  have hlen : maxTimeSeriesPerUpload * smb.sent.length + smb.allTss.length = l.length := by
    have := congrArg List.length hcat
    simpa [hflat] using this
  have hcl : (close smb []).1
      = if smb.allTss.length > 0 then sendReqToChan smb else smb := by
    unfold close
    simp
  refine ⟨?_, ?_, ?_, (addTimeSeries_step mb ts).1, (addTimeSeries_step mb ts).2.1, ?_⟩
  · rw [hcl]
    by_cases hz : smb.allTss.length > 0
    · rw [if_pos hz]
      simp only [sendReqToChan, List.length_append, List.length_singleton]
      have h200 : maxTimeSeriesPerUpload = 200 := rfl
      rw [h200] at hlen hlt ⊢
      omega
    · rw [if_neg hz]
      have h200 : maxTimeSeriesPerUpload = 200 := rfl
      rw [h200] at hlen hlt ⊢
      omega
  · rw [hcl]
    intro r hr
    by_cases hz : smb.allTss.length > 0
    · rw [if_pos hz] at hr
      simp only [sendReqToChan] at hr
      rcases List.mem_append.1 hr with hr | hr
      · exact Nat.le_of_eq (hall r hr)
      · simp only [List.mem_singleton] at hr
        subst hr
        exact Nat.le_of_lt hlt
    · rw [if_neg hz] at hr
      exact Nat.le_of_eq (hall r hr)
  · rw [hcl]
    by_cases hz : smb.allTss.length > 0
    · rw [if_pos hz]
      simp only [sendReqToChan, List.map_append, List.flatten_append]
      rw [← hcat]
      simp
    · rw [if_neg hz]
      have : smb.allTss = [] := List.length_eq_zero.1 (by omega)
      rw [this, List.append_nil] at hcat
      exact hcat
  · intro hne
    unfold close
    rw [drain_sent]
    simp only [List.length_pos]
    rw [if_pos hne]
    rfl

/-- Witness for C6: one submitted series then close yields a single request
holding it; a non-empty accumulator is flushed by close. -/
theorem batcher_requests_witness :
    ((close (submitAll (newMetricsBatcher "p") [tsOfType "a/b/c"]) []).1.sent.length
      = ([tsOfType "a/b/c"].length + (maxTimeSeriesPerUpload - 1)) / maxTimeSeriesPerUpload) ∧
    ({ newMetricsBatcher "p" with allTss := [tsOfType "a/b/c"] } : MetricsBatcher).allTss ≠ [] ∧
    ((close { newMetricsBatcher "p" with allTss := [tsOfType "a/b/c"] } []).1).sent
      = [{ name := "projects/p", timeSeries := [tsOfType "a/b/c"] }] := by
  refine ⟨(batcher_requests "p" [tsOfType "a/b/c"] (newMetricsBatcher "p")
    (tsOfType "a/b/c") []).1, by decide, ?_⟩
  have h := (batcher_requests "p" [] { newMetricsBatcher "p" with allTss := [tsOfType "a/b/c"] }
    (tsOfType "a/b/c") []).2.2.2.2.2 (by decide)
  simpa [newMetricsBatcher] using h

/-! ## The splitter: helper lemmas for C1 and C2 -/

/-- The two partitions together hold exactly the input series. -/
theorem partitionBySeen_length (ts : List TimeSeries) :
    ∀ seen, (partitionBySeen seen ts).1.length + (partitionBySeen seen ts).2.length
      = ts.length := by
  induction ts with
  | nil => intro seen; rfl
  | cons t rest ih =>
    intro seen
    unfold partitionBySeen
    by_cases h : metricSignature t.metric ∈ seen
    · simp only [if_pos h, List.length_cons]
      have := ih seen
      omega
    · simp only [if_neg h, List.length_cons]
      have := ih (metricSignature t.metric :: seen)
      omega

/-- The spilled partition never exceeds the input. -/
theorem partitionBySeen_snd_le (seen : List String) (ts : List TimeSeries) :
    (partitionBySeen seen ts).2.length ≤ ts.length := by
  have := partitionBySeen_length ts seen
  omega

/-- Every spilled series comes from the input. -/
theorem partitionBySeen_snd_sub (ts : List TimeSeries) :
    ∀ seen, ∀ x ∈ (partitionBySeen seen ts).2, x ∈ ts := by
  induction ts with
  | nil => intro seen x hx; cases hx
  | cons t rest ih =>
    intro seen x hx
    unfold partitionBySeen at hx
    by_cases h : metricSignature t.metric ∈ seen
    · simp only [if_pos h, List.mem_cons] at hx
      rcases hx with hx | hx
      · exact hx ▸ List.mem_cons_self t rest
      · exact List.mem_cons_of_mem t (ih seen x hx)
    · simp only [if_neg h] at hx
      exact List.mem_cons_of_mem t (ih (metricSignature t.metric :: seen) x hx)

/-- On a non-empty input with nothing seen yet, the spilled partition is
strictly smaller (the head always lands in the unique partition). -/
theorem partitionBySeen_cons_snd_lt (t : TimeSeries) (ts : List TimeSeries) :
    (partitionBySeen [] (t :: ts)).2.length < (t :: ts).length := by
  unfold partitionBySeen
  rw [if_neg (List.not_mem_nil _)]
  have := partitionBySeen_snd_le [metricSignature t.metric] ts
  simp only [List.length_cons]
  omega

/-- The fuel argument of `combineAux` is irrelevant once it covers the
input length. -/
theorem combineAux_congr (pid : String) :
    ∀ f1 f2 (ts : List TimeSeries), ts.length ≤ f1 → ts.length ≤ f2 →
      combineAux pid f1 ts = combineAux pid f2 ts := by
  intro f1
  induction f1 with
  | zero =>
    intro f2 ts h1 _
    have : ts = [] := List.eq_nil_of_length_eq_zero (by omega)
    subst this
    cases f2 <;> rfl
  | succ f1 ih =>
    intro f2 ts h1 h2
    cases ts with
    | nil => cases f2 <;> rfl
    | cons t rest =>
      cases f2 with
      | zero => simp at h2
      | succ f2 =>
        simp only [combineAux]
        congr 1
        have hlt := partitionBySeen_cons_snd_lt t rest
        simp only [List.length_cons] at hlt h1 h2
        exact ih f2 _ (by omega) (by omega)

/-- Unfolding: splitting a non-empty list yields the request of unique
series followed by the split of the spilled series. -/
theorem combine_cons (pid : String) (t : TimeSeries) (ts : List TimeSeries) :
    combineTimeSeriesToCreateTimeSeriesRequest pid (t :: ts)
      = CreateTimeSeriesRequest.mk ("projects/" ++ pid) (partitionBySeen [] (t :: ts)).1
        :: combineTimeSeriesToCreateTimeSeriesRequest pid (partitionBySeen [] (t :: ts)).2 := by
  unfold combineTimeSeriesToCreateTimeSeriesRequest
  simp only [List.length_cons, combineAux]
  congr 1
  have hlt := partitionBySeen_cons_snd_lt t ts
  simp only [List.length_cons] at hlt
  exact combineAux_congr pid ts.length _ _ (by omega) le_rfl

/-- The unique partition has pairwise distinct signatures, none of them
previously seen. -/
theorem partitionBySeen_fst_nodup (ts : List TimeSeries) :
    ∀ seen, ((partitionBySeen seen ts).1.map (fun t => metricSignature t.metric)).Nodup ∧
      ∀ t ∈ (partitionBySeen seen ts).1, metricSignature t.metric ∉ seen := by
  induction ts with
  | nil => intro seen; exact ⟨List.nodup_nil, by intro t ht; cases ht⟩
  | cons t rest ih =>
    intro seen
    unfold partitionBySeen
    by_cases h : metricSignature t.metric ∈ seen
    · simp only [if_pos h]
      exact ih seen
    · simp only [if_neg h]
      obtain ⟨hnd, hmem⟩ := ih (metricSignature t.metric :: seen)
      refine ⟨?_, ?_⟩
      · simp only [List.map_cons, List.nodup_cons]
        refine ⟨?_, hnd⟩
        intro hc
        obtain ⟨u, hu, hequ⟩ := List.mem_map.1 hc
        exact hmem u hu (hequ ▸ List.mem_cons_self _ _)
      · intro u hu
        simp only [List.mem_cons] at hu
        rcases hu with hu | hu
        · subst hu; exact h
        · intro hs
          exact hmem u hu (List.mem_cons_of_mem _ hs)

/-- C1: every request produced by the splitter holds pairwise distinct
signatures, and the total number of series across all requests equals the
input length. -/
theorem combine_requests_dedup (pid : String) (ts : List TimeSeries) :
    (∀ req ∈ combineTimeSeriesToCreateTimeSeriesRequest pid ts,
      (req.timeSeries.map (fun t => metricSignature t.metric)).Nodup) ∧
    totalSeries (combineTimeSeriesToCreateTimeSeriesRequest pid ts) = ts.length := by
  suffices H : ∀ n (ts : List TimeSeries), ts.length ≤ n →
      (∀ req ∈ combineTimeSeriesToCreateTimeSeriesRequest pid ts,
        (req.timeSeries.map (fun t => metricSignature t.metric)).Nodup) ∧
      totalSeries (combineTimeSeriesToCreateTimeSeriesRequest pid ts) = ts.length by
    exact H ts.length ts le_rfl
  intro n
  induction n with
  | zero =>
    intro ts h
    have : ts = [] := List.eq_nil_of_length_eq_zero (by omega)
    subst this
    exact ⟨fun req hreq => absurd hreq (List.not_mem_nil req), rfl⟩
  | succ n ih =>
    intro ts h
    cases ts with
    | nil => exact ⟨fun req hreq => absurd hreq (List.not_mem_nil req), rfl⟩
    | cons t rest =>
      rw [combine_cons]
      have hlt := partitionBySeen_cons_snd_lt t rest
      simp only [List.length_cons] at hlt h
      have spec := ih (partitionBySeen [] (t :: rest)).2 (by omega)
      constructor
      · intro req hreq
        simp only [List.mem_cons] at hreq
        rcases hreq with hreq | hreq
        · subst hreq
          exact (partitionBySeen_fst_nodup (t :: rest) []).1
        · exact spec.1 req hreq
      · simp only [totalSeries, List.map_cons, List.sum_cons]
        have hsum : totalSeries
            (combineTimeSeriesToCreateTimeSeriesRequest pid (partitionBySeen [] (t :: rest)).2)
            = (partitionBySeen [] (t :: rest)).2.length := spec.2
        simp only [totalSeries] at hsum
        rw [hsum]
        have := partitionBySeen_length (t :: rest) []
        simp only [List.length_cons] at this ⊢
        omega

/-- Witness for C1: on the `[A, A, B, A, C]` example each produced request
has distinct signatures and the five series are all preserved. -/
theorem combine_requests_dedup_witness :
    totalSeries (combineTimeSeriesToCreateTimeSeriesRequest "p" seriesAABAC)
      = seriesAABAC.length ∧
    (CreateTimeSeriesRequest.mk "projects/p"
        [tsOfType "a/b/c", tsOfType "x/y/z", tsOfType "p/y/z"]
      ∈ combineTimeSeriesToCreateTimeSeriesRequest "p" seriesAABAC) ∧
    ((CreateTimeSeriesRequest.mk "projects/p"
        [tsOfType "a/b/c", tsOfType "x/y/z", tsOfType "p/y/z"]).timeSeries.map
      (fun t => metricSignature t.metric)).Nodup := by
  refine ⟨(combine_requests_dedup "p" seriesAABAC).2, by decide, ?_⟩
  exact (combine_requests_dedup "p" seriesAABAC).1 _ (by decide)

/-- Signature count over a cons. -/
theorem sigCount_cons (s : String) (t : TimeSeries) (l : List TimeSeries) :
    sigCount s (t :: l)
      = sigCount s l + if metricSignature t.metric = s then 1 else 0 := by
  simp only [sigCount, List.map_cons, List.count_cons]
  by_cases h : metricSignature t.metric = s <;> simp [h, beq_iff_eq]

/-- Spilling removes exactly one occurrence of every unseen signature and
none of a seen one. -/
theorem partitionBySeen_sigCount (ts : List TimeSeries) :
    ∀ seen s, sigCount s (partitionBySeen seen ts).2
      = if s ∈ seen then sigCount s ts else sigCount s ts - 1 := by
  induction ts with
  | nil =>
    intro seen s
    by_cases hs : s ∈ seen <;> simp [hs, partitionBySeen, sigCount]
  | cons t rest ih =>
    intro seen s
    unfold partitionBySeen
    by_cases h : metricSignature t.metric ∈ seen
    · simp only [if_pos h]
      rw [sigCount_cons, sigCount_cons, ih seen s]
      by_cases hs : s ∈ seen
      · simp only [if_pos hs]
      · simp only [if_neg hs]
        have hts : metricSignature t.metric ≠ s := fun hc => hs (hc ▸ h)
        rw [if_neg hts]
        have h1 : 0 < sigCount s rest ∨ sigCount s rest = 0 := by omega
        omega
    · simp only [if_neg h]
      rw [ih (metricSignature t.metric :: seen) s, sigCount_cons]
      by_cases hs : s ∈ seen
      · have hmem : s ∈ metricSignature t.metric :: seen := List.mem_cons_of_mem _ hs
        have hts : metricSignature t.metric ≠ s := fun hc => h (hc ▸ hs)
        simp only [if_pos hmem, if_pos hs, if_neg hts]
        omega
      · by_cases hts : metricSignature t.metric = s
        · have hmem : s ∈ metricSignature t.metric :: seen := by
            simp [hts]
          simp only [if_pos hmem, if_neg hs, if_pos hts]
          omega
        · have hmem : s ∉ metricSignature t.metric :: seen := by
            simp only [List.mem_cons]
            push_neg
            exact ⟨fun hc => hts hc.symm, hs⟩
          simp only [if_neg hmem, if_neg hs, if_neg hts]
          omega

/-- Elements bound the `foldr max` of a list of naturals. -/
theorem le_foldrMax (l : List Nat) : ∀ x ∈ l, x ≤ l.foldr max 0 := by
  induction l with
  | nil => intro x hx; cases hx
  | cons a rest ih =>
    intro x hx
    simp only [List.mem_cons] at hx
    simp only [List.foldr_cons]
    rcases hx with hx | hx
    · subst hx; exact Nat.le_max_left _ _
    · exact Nat.le_trans (ih x hx) (Nat.le_max_right _ _)

/-- The `foldr max` of a non-empty list of naturals is attained. -/
theorem foldrMax_mem (l : List Nat) (h : l ≠ []) : l.foldr max 0 ∈ l := by
  induction l with
  | nil => exact absurd rfl h
  | cons a rest ih =>
    cases rest with
    | nil => simp
    | cons b rest' =>
      simp only [List.foldr_cons] at ih ⊢
      rcases max_choice a ((b :: rest').foldr max 0 : Nat) with hc | hc
      · rw [List.foldr_cons] at hc
        rw [hc]
        exact List.mem_cons_self _ _
      · rw [List.foldr_cons] at hc
        rw [hc]
        exact List.mem_cons_of_mem _ (ih (by simp))

/-- An upper bound on all elements bounds the `foldr max`. -/
theorem foldrMax_le (l : List Nat) (c : Nat) (h : ∀ x ∈ l, x ≤ c) :
    l.foldr max 0 ≤ c := by
  induction l with
  | nil => exact Nat.zero_le c
  | cons a rest ih =>
    simp only [List.foldr_cons]
    exact Nat.max_le.2 ⟨h a (List.mem_cons_self _ _),
      ih (fun x hx => h x (List.mem_cons_of_mem _ hx))⟩

/-- A positive signature count exhibits a series with that signature. -/
theorem sigCount_pos (s : String) (ts : List TimeSeries) :
    0 < sigCount s ts ↔ ∃ t ∈ ts, metricSignature t.metric = s := by
  simp only [sigCount]
  rw [List.count_pos_iff]
  simp only [List.mem_map]

/-- A series contributes its own signature count to the maximum. -/
theorem sigCount_le_maxMultiplicity (t : TimeSeries) (ts : List TimeSeries)
    (h : t ∈ ts) :
    sigCount (metricSignature t.metric) ts ≤ maxMultiplicity ts :=
  le_foldrMax _ _ (List.mem_map_of_mem _ h)

/-- A non-empty list has maximum multiplicity at least 1. -/
theorem maxMultiplicity_pos (ts : List TimeSeries) (h : ts ≠ []) :
    1 ≤ maxMultiplicity ts := by
  cases ts with
  | nil => exact absurd rfl h
  | cons t rest =>
    have h1 : 0 < sigCount (metricSignature t.metric) (t :: rest) := by
      rw [sigCount_pos]
      exact ⟨t, List.mem_cons_self _ _, rfl⟩
    exact Nat.le_trans h1 (sigCount_le_maxMultiplicity t _ (List.mem_cons_self _ _))

/-- Splitting off the unique partition lowers the maximum multiplicity by
exactly one. -/
theorem maxMultiplicity_partition (ts : List TimeSeries) :
    maxMultiplicity (partitionBySeen [] ts).2 = maxMultiplicity ts - 1 := by
  apply Nat.le_antisymm
  · apply foldrMax_le
    intro x hx
    obtain ⟨u, hu, rfl⟩ := List.mem_map.1 hx
    rw [partitionBySeen_sigCount ts [] (metricSignature u.metric),
      if_neg (List.not_mem_nil _)]
    have hle := sigCount_le_maxMultiplicity u ts (partitionBySeen_snd_sub ts [] u hu)
    omega
  · by_cases hM : maxMultiplicity ts ≤ 1
    · omega
    · push_neg at hM
      have hne : ts ≠ [] := by
        intro hc
        subst hc
        simp [maxMultiplicity] at hM
      have hmem : maxMultiplicity ts
          ∈ ts.map (fun t => sigCount (metricSignature t.metric) ts) :=
        foldrMax_mem _ (by simpa using hne)
      obtain ⟨t, ht, heq⟩ := List.mem_map.1 hmem
      have hcount : sigCount (metricSignature t.metric) (partitionBySeen [] ts).2
          = maxMultiplicity ts - 1 := by
        rw [partitionBySeen_sigCount ts [] (metricSignature t.metric),
          if_neg (List.not_mem_nil _), heq]
      have hpos : 0 < sigCount (metricSignature t.metric) (partitionBySeen [] ts).2 := by
        omega
      obtain ⟨u, hu, hsig⟩ := (sigCount_pos _ _).1 hpos
      have : sigCount (metricSignature u.metric) (partitionBySeen [] ts).2
          = maxMultiplicity ts - 1 := by
        rw [hsig, hcount]
      calc maxMultiplicity ts - 1
          = sigCount (metricSignature u.metric) (partitionBySeen [] ts).2 := this.symm
        _ ≤ maxMultiplicity (partitionBySeen [] ts).2 :=
            sigCount_le_maxMultiplicity u _ hu

/-- C2: splitting a non-empty list yields exactly as many requests as the
maximum multiplicity of any single signature; the `[A, A, B, A, C]`
example splits into exactly 3 requests of sizes `[3, 1, 1]` with no
request holding two `A`-signature series. -/
theorem combine_request_count (pid : String) (ts : List TimeSeries)
    (h : ts ≠ []) :
    (combineTimeSeriesToCreateTimeSeriesRequest pid ts).length = maxMultiplicity ts ∧
    (combineTimeSeriesToCreateTimeSeriesRequest "p" seriesAABAC).map
      (fun r => r.timeSeries.length) = [3, 1, 1] ∧
    maxMultiplicity seriesAABAC = 3 ∧
    (combineTimeSeriesToCreateTimeSeriesRequest "p" seriesAABAC).all
      (fun r => r.timeSeries.countP
        (fun t => metricSignature t.metric == "a/b/c:") ≤ 1) = true := by
  refine ⟨?_, by decide, by decide, by decide⟩
  suffices H : ∀ n (ts : List TimeSeries), ts.length ≤ n → ts ≠ [] →
      (combineTimeSeriesToCreateTimeSeriesRequest pid ts).length = maxMultiplicity ts by
    exact H ts.length ts le_rfl h
  intro n
  induction n with
  | zero =>
    intro ts hlen hne
    have : ts = [] := List.eq_nil_of_length_eq_zero (by omega)
    exact absurd this hne
  | succ n ih =>
    intro ts hlen hne
    cases ts with
    | nil => exact absurd rfl hne
    | cons t rest =>
      rw [combine_cons]
      simp only [List.length_cons]
      have hpart := maxMultiplicity_partition (t :: rest)
      have hpos := maxMultiplicity_pos (t :: rest) (by simp)
      have hlt := partitionBySeen_cons_snd_lt t rest
      simp only [List.length_cons] at hlt hlen
      by_cases hp : (partitionBySeen [] (t :: rest)).2 = []
      · rw [hp]
        have h0 : maxMultiplicity ([] : List TimeSeries) = 0 := rfl
        rw [hp, h0] at hpart
        have : combineTimeSeriesToCreateTimeSeriesRequest pid ([] : List TimeSeries)
            = [] := rfl
        rw [this]
        simp only [List.length_nil]
        omega
      · have := ih (partitionBySeen [] (t :: rest)).2 (by omega) hp
        rw [this, hpart]
        omega

/-- Witness for C2: the `[A, A, B, A, C]` example is non-empty and splits
into exactly `maxMultiplicity = 3` requests. -/
theorem combine_request_count_witness :
    seriesAABAC ≠ [] ∧
    (combineTimeSeriesToCreateTimeSeriesRequest "p" seriesAABAC).length
      = maxMultiplicity seriesAABAC :=
  ⟨by decide, (combine_request_count "p" seriesAABAC (by decide)).1⟩

end Stackdriver
